import Mathlib

/-!
Verification of the JavaScript target adapter
(`Fuzz4All/target/JS/JS.py`, class `JSTarget`).

Candidate texts are embedded as `List Char`; the Python string operations
used by the adapter (`str.replace`, `str.strip`, `str.split("\n")`,
`"\n".join`) are given explicit executable definitions below with the
semantics of the Python originals.  The subprocess call made by
`validate_individual` is abstracted by `RunResult`, the three ways
`subprocess.run(["node", file], capture_output=True, text=True,
timeout=...)` can come back in the source's `try` block: normal
completion with a return code and captured streams, `TimeoutExpired`,
or `FileNotFoundError`.  Launch failures raising other exceptions
(e.g. `PermissionError`) are uncaught in the source; `RunEvent` and
`validate_individual_run` model that wider picture.
-/

/-- Python whitespace, the full set `str.strip()` (via `str.isspace()`)
removes in CPython: U+0009..U+000D (tab, newline, vertical tab, form
feed, carriage return), U+001C..U+001F (the file/group/record/unit
separators), U+0020 (space), U+0085 (next line), U+00A0 (no-break
space), U+1680, the Unicode space separators U+2000..U+200A, U+2028
(line separator), U+2029 (paragraph separator), U+202F, U+205F and
U+3000. -/
def isPySpace (c : Char) : Bool :=
  (0x09 ≤ c.toNat && c.toNat ≤ 0x0d) || c.toNat = 0x20 ||
  (0x1c ≤ c.toNat && c.toNat ≤ 0x1f) || c.toNat = 0x85 || c.toNat = 0xa0 ||
  c.toNat = 0x1680 || (0x2000 ≤ c.toNat && c.toNat ≤ 0x200a) ||
  c.toNat = 0x2028 || c.toNat = 0x2029 || c.toNat = 0x202f ||
  c.toNat = 0x205f || c.toNat = 0x3000

/-- Python `s.strip()`: drop leading and trailing whitespace. -/
def pyStrip (s : List Char) : List Char :=
  ((s.dropWhile isPySpace).reverse.dropWhile isPySpace).reverse

/-- Worker for `removeAll`, structurally recursive on a fuel that is at
least the length of the text (each step strictly shortens the text, so
the fuel never runs out on the intended calls). -/
def removeAllGo (old : List Char) : Nat → List Char → List Char
  | _, [] => []
  | 0, s => s
  | n + 1, c :: cs =>
    if old ≠ [] ∧ old.isPrefixOf (c :: cs) then removeAllGo old n ((c :: cs).drop old.length)
    else c :: removeAllGo old n cs

/-- Python `s.replace(old, "")`: remove every (left-to-right,
non-overlapping) occurrence of `old`.  For `old = ""` Python's
`replace` with an empty replacement is the identity. -/
def removeAll (old s : List Char) : List Char :=
  removeAllGo old s.length s

/-- Removing the first occurrence only (used to state the spec's version
of the acceptance algorithm in claim C3). -/
def removeFirst (old : List Char) : List Char → List Char
  | [] => []
  | c :: cs =>
    if old ≠ [] ∧ old.isPrefixOf (c :: cs) then (c :: cs).drop old.length
    else c :: removeFirst old cs

/-- Skip to just past the closing `*/` of a block comment; an
unterminated block comment swallows the rest of the text. -/
def skipBlock : List Char → List Char
  | [] => []
  | '*' :: '/' :: cs => cs
  | _ :: cs => skipBlock cs

/-- Worker for `comment_remover`, structurally recursive on a fuel that
is at least the length of the text. -/
def commentRemoverGo : Nat → List Char → List Char
  | _, [] => []
  | 0, s => s
  | n + 1, '/' :: '/' :: cs => commentRemoverGo n (cs.dropWhile (· ≠ '\n'))
  | n + 1, '/' :: '*' :: cs => commentRemoverGo n (skipBlock cs)
  | n + 1, c :: cs => c :: commentRemoverGo n cs

/-- Modelled from the spec: `comment_remover` (imported from
`Fuzz4All.util.util`, not part of this tree) "strips all comments" from
the candidate; for JavaScript these are `//` line comments (removed up
to, but not including, the line's newline) and `/* ... */` block
comments (removed entirely). -/
def comment_remover (s : List Char) : List Char :=
  commentRemoverGo s.length s

/-- Python `s.split("\n")`. -/
def splitLines : List Char → List (List Char)
  | [] => [[]]
  | c :: cs =>
    if c = '\n' then [] :: splitLines cs
    else
      match splitLines cs with
      | [] => [[c]]
      | l :: ls => (c :: l) :: ls

/-- Python `"\n".join(lines)`. -/
def joinLines : List (List Char) → List Char
  | [] => []
  | [l] => l
  | l :: ls => l ++ '\n' :: joinLines ls

/-- A line is kept by `clean_code` when it is non-blank, i.e. Python's
`ln.strip() != ""`. -/
def nonBlank (l : List Char) : Bool := !(pyStrip l).isEmpty

/-- Python `target in code`: literal substring containment, as a
scan over suffixes. -/
def containsSub (t : List Char) : List Char → Bool
  | [] => t.isEmpty
  | c :: cs => t.isPrefixOf (c :: cs) || containsSub t cs

namespace JSTarget

/-- Embedding of `JSTarget.filter` (JS.py lines 36-40): delete every occurrence of
the begin marker (`code.replace(begin, "")`), strip surrounding
whitespace, strip comments, then test whether the target API symbol
occurs as a literal substring. -/
def filter (begin_ target_api code : List Char) : Bool :=
  containsSub target_api (comment_remover (pyStrip (removeAll begin_ code)))

/-- Embedding of `JSTarget.clean` (JS.py lines 42-43): just strip comments. -/
def clean (code : List Char) : List Char :=
  comment_remover code

/-- Embedding of `JSTarget.clean_code` (JS.py lines 45-50): delete every occurrence
of the begin marker, strip, strip comments, then drop lines that are
blank after trimming and rejoin the remaining lines with newlines. -/
def clean_code (begin_ code : List Char) : List Char :=
  let code1 := pyStrip (removeAll begin_ code)
  let code2 := comment_remover code1
  joinLines ((splitLines code2).filter nonBlank)

end JSTarget

/-- Modelled from the spec: the outcome tags of `FResult` (imported
from `Fuzz4All.target.target`, not part of this tree) — the four
classification results `Safe`, `Failure`, `TimedOut` and
`EnvironmentError` (the latter is spelled `ERROR` in the source). -/
inductive FResult where
  | SAFE
  | FAILURE
  | TIMED_OUT
  | ERROR
deriving DecidableEq, Repr

/-- The three results of the `subprocess.run(["node", file],
capture_output=True, text=True, timeout=self.timeout)` call that
`validate_individual`'s `try` block handles: normal completion (carrying
`returncode`, `stdout`, `stderr`), `subprocess.TimeoutExpired`
(the timeout elapsed; `subprocess.run` kills the child before raising),
or `FileNotFoundError` (the `node` binary could not be located).  Launch
failures that raise other exceptions — e.g. `PermissionError` when the
binary exists but is not executable — are NOT caught by the source and
so have no constructor here; `RunEvent` below covers them. -/
inductive RunResult where
  | completed (returncode : Int) (stdout stderr : String)
  | timedOut
  | fileNotFound
deriving DecidableEq, Repr

/-- All the ways the subprocess launch can conclude, including launch
failures other than `FileNotFoundError`: `permissionError` stands for a
`PermissionError` (or similar `OSError`) raised by `subprocess.run` when
the interpreter binary is present but cannot be launched, which the
`try` block in `validate_individual` does not catch. -/
inductive RunEvent where
  | completed (returncode : Int) (stdout stderr : String)
  | timedOut
  | fileNotFound
  | permissionError
deriving DecidableEq, Repr

/-- Python `a or b` on strings: `b` if `a` is empty, else `a`. -/
def pyOr (a b : String) : String := if a = "" then b else a

namespace JSTarget

/-- Embedding of `JSTarget.validate_individual` (JS.py lines 61-88), as a function of
the subprocess call's result: timeout → `(TIMED_OUT, "javascript")`;
`node` missing → `(ERROR, "node-not-found")`; exit status 0 →
`(SAFE, stdout or "ok")`; nonzero exit → `(FAILURE, stderr or stdout)`. -/
def validate_individual : RunResult → FResult × String
  | .timedOut => (.TIMED_OUT, "javascript")
  | .fileNotFound => (.ERROR, "node-not-found")
  | .completed rc out err =>
    if rc = 0 then (.SAFE, pyOr out "ok")
    else (.FAILURE, pyOr err out)

/-- Embedding of `validate_individual` over every launch outcome: on the
events the `try` block handles it returns `validate_individual`'s
classification; on an uncaught exception (`PermissionError` etc.) the
Python function does not return at all — the exception propagates to the
caller — modelled as `none`. -/
def validate_individual_run : RunEvent → Option (FResult × String)
  | .completed rc out err => some (validate_individual (.completed rc out err))
  | .timedOut => some (validate_individual .timedOut)
  | .fileNotFound => some (validate_individual .fileNotFound)
  | .permissionError => none

end JSTarget

/-- A fragment of the file system: an association list from path to
contents; the most recent write for a path stands first. -/
def FS : Type := List (List Char × List Char)

/-- Opening a path with mode `"w"` and writing `c` creates the file or
truncates an existing one; later lookups see the new contents. -/
def fsWrite (p c : List Char) (fs : FS) : FS := (p, c) :: fs

/-- Contents of the file at `p`, `none` when no such file exists. -/
def fsLookup (p : List Char) : FS → Option (List Char)
  | ([] : List _) => none
  | (q, c) :: fs => if q = p then some c else fsLookup p fs

/-- Modelled from the spec: `self.CURRENT_TIME` (inherited from the
`Target` base class, not part of this tree) is the "global mutable
current timestamp" of design note §9; the artifact path
`f"/tmp/temp{self.CURRENT_TIME}.js"` is derived from it alone. -/
def artifactPath (currentTime : Nat) : List Char :=
  "/tmp/temp".data ++ (toString currentTime).data ++ ".js".data

namespace JSTarget

/-- Embedding of `JSTarget.write_back_file` (JS.py lines 54-59): normalize the code
with `clean_code`, open `/tmp/temp{CURRENT_TIME}.js` for writing and
write the normalized code into it; the path is returned. -/
def write_back_file (begin_ : List Char) (currentTime : Nat) (code : List Char)
    (fs : FS) : List Char × FS :=
  let c := clean_code begin_ code
  let wb := artifactPath currentTime
  (wb, fsWrite wb c fs)

/-- One whole validation call as the orchestrator performs it: persist
the artifact with `write_back_file`, then classify the subprocess result
with `validate_individual` — which performs no file-system operation of
its own (JS.py lines 61-88 contain no `os.remove` or equivalent), so the
call returns the file system exactly as `write_back_file` left it. -/
def validateCall (begin_ : List Char) (currentTime : Nat) (code : List Char)
    (r : RunResult) (fs : FS) : (FResult × String) × FS :=
  let wb := write_back_file begin_ currentTime code fs
  (validate_individual r, wb.2)

end JSTarget

/-- Modelled from the claim text of C3: the acceptance algorithm with
only the FIRST occurrence of the begin marker removed, the rest of the
pipeline unchanged. -/
def acceptSpecC3 (begin_ target_api code : List Char) : Bool :=
  containsSub target_api (comment_remover (pyStrip (removeFirst begin_ code)))

theorem isPrefixOf_eq_true_iff (l l' : List Char) : l.isPrefixOf l' = true ↔ l <+: l' :=
  List.isPrefixOf_iff_prefix

/-- Correctness of `containsSub`: it decides literal substring containment. -/
theorem containsSub_iff (t s : List Char) : containsSub t s = true ↔ t <:+: s := by
  induction s with
  | nil => simp [containsSub, List.isEmpty_iff, List.infix_nil]
  | cons c cs ih =>
    simp only [containsSub, Bool.or_eq_true, isPrefixOf_eq_true_iff, ih, List.infix_cons_iff]

theorem splitLines_ne_nil (s : List Char) : splitLines s ≠ [] := by
  cases s with
  | nil => simp [splitLines]
  | cons c cs =>
    simp only [splitLines]
    split
    · simp
    · split <;> simp

theorem splitLines_cons_newline (cs : List Char) :
    splitLines ('\n' :: cs) = [] :: splitLines cs := by
  simp [splitLines]

theorem splitLines_cons_ne {c : Char} (hc : c ≠ '\n') (cs : List Char)
    {l : List Char} {ls : List (List Char)} (he : splitLines cs = l :: ls) :
    splitLines (c :: cs) = (c :: l) :: ls := by
  simp [splitLines, hc, he]

/-- Every line produced by `splitLines` is newline-free. -/
theorem not_newline_of_mem_splitLines (s : List Char) :
    ∀ l ∈ splitLines s, '\n' ∉ l := by
  induction s with
  | nil =>
    intro l hl
    simp only [splitLines, List.mem_singleton] at hl
    simp [hl]
  | cons c cs ih =>
    intro l hl
    by_cases hc : c = '\n'
    · subst hc
      rw [splitLines_cons_newline] at hl
      rcases List.mem_cons.mp hl with rfl | hmem
      · simp
      · exact ih l hmem
    · obtain ⟨h', tl', he'⟩ := List.exists_cons_of_ne_nil (splitLines_ne_nil cs)
      rw [splitLines_cons_ne hc cs he'] at hl
      rcases List.mem_cons.mp hl with rfl | hmem
      · intro hin
        rcases List.mem_cons.mp hin with heq | hmem'
        · exact hc heq.symm
        · exact ih h' (he' ▸ List.mem_cons_self h' tl') hmem'
      · exact ih l (he' ▸ List.mem_cons_of_mem h' hmem)

/-- A newline-free text splits into itself as its single line. -/
theorem splitLines_eq_self {l : List Char} (h : '\n' ∉ l) : splitLines l = [l] := by
  induction l with
  | nil => rfl
  | cons c cs ih =>
    rw [List.mem_cons, not_or] at h
    have hc : c ≠ '\n' := fun hcc => h.1 hcc.symm
    exact splitLines_cons_ne hc cs (ih h.2)

theorem splitLines_append_newline {a : List Char} (h : '\n' ∉ a) (s : List Char) :
    splitLines (a ++ '\n' :: s) = a :: splitLines s := by
  induction a with
  | nil => simpa using splitLines_cons_newline s
  | cons c cs ih =>
    rw [List.mem_cons, not_or] at h
    have hc : c ≠ '\n' := fun hcc => h.1 hcc.symm
    simpa using splitLines_cons_ne hc (cs ++ '\n' :: s) (ih h.2)

theorem joinLines_cons_cons (a b : List Char) (bs : List (List Char)) :
    joinLines (a :: b :: bs) = a ++ '\n' :: joinLines (b :: bs) := rfl

/-- Splitting undoes joining, for a nonempty list of newline-free lines. -/
theorem splitLines_joinLines :
    ∀ {L : List (List Char)}, L ≠ [] → (∀ l ∈ L, '\n' ∉ l) →
      splitLines (joinLines L) = L
  | [], h, _ => absurd rfl h
  | [a], _, hnl => by
    simpa [joinLines] using splitLines_eq_self (hnl a (List.mem_singleton_self a))
  | a :: b :: bs, _, hnl => by
    rw [joinLines_cons_cons,
      splitLines_append_newline (hnl a (List.mem_cons_self a _)),
      splitLines_joinLines (by simp) (fun l hl => hnl l (List.mem_cons_of_mem a hl))]

/-- Any member line is an infix of the joined text. -/
theorem infix_joinLines_of_mem {l : List Char} :
    ∀ {L : List (List Char)}, l ∈ L → l <:+: joinLines L
  | [], h => absurd h (List.not_mem_nil l)
  | [a], h => by
    rcases List.mem_singleton.mp h with rfl
    exact List.infix_refl l
  | a :: b :: bs, h => by
    rcases List.mem_cons.mp h with rfl | hmem
    · rw [joinLines_cons_cons]
      exact (List.prefix_append l ('\n' :: joinLines (b :: bs))).isInfix
    · rw [joinLines_cons_cons]
      have h1 : l <:+: joinLines (b :: bs) := infix_joinLines_of_mem hmem
      have h2 : joinLines (b :: bs) <:+: a ++ '\n' :: joinLines (b :: bs) :=
        ⟨a ++ ['\n'], [], by simp⟩
      exact h1.trans h2

/-- A newline-free prefix of a text is a prefix of its first line. -/
theorem prefix_splitLines_head {t : List Char} (hn : ∀ c ∈ t, c ≠ '\n') :
    ∀ {s l : List Char} {ls : List (List Char)},
      t <+: s → splitLines s = l :: ls → t <+: l := by
  induction t with
  | nil => intro s l ls _ _; exact List.nil_prefix
  | cons a t' ih =>
    intro s l ls hp he
    cases s with
    | nil => simp at hp
    | cons b s' =>
      obtain ⟨rfl, hp'⟩ := List.cons_prefix_cons.mp hp
      have ha : a ≠ '\n' := hn a (List.mem_cons_self a t')
      obtain ⟨h', tl', he'⟩ := List.exists_cons_of_ne_nil (splitLines_ne_nil s')
      rw [splitLines_cons_ne ha s' he'] at he
      injection he with h1 h2
      subst h1
      subst h2
      exact List.cons_prefix_cons.mpr
        ⟨rfl, ih (fun c hc => hn c (List.mem_cons_of_mem a hc)) hp' he'⟩

/-- A newline-free infix of a text is an infix of one of its lines. -/
theorem infix_splitLines {t : List Char} (hn : ∀ c ∈ t, c ≠ '\n') :
    ∀ {s : List Char}, t <:+: s → ∃ l ∈ splitLines s, t <:+: l := by
  intro s
  induction s with
  | nil =>
    intro h
    refine ⟨[], by simp [splitLines], ?_⟩
    rw [List.infix_nil.mp h]
  | cons c cs ih =>
    intro h
    rcases List.infix_cons_iff.mp h with hp | hi
    · obtain ⟨l, ls, he⟩ := List.exists_cons_of_ne_nil (splitLines_ne_nil (c :: cs))
      exact ⟨l, he ▸ List.mem_cons_self l ls, (prefix_splitLines_head hn hp he).isInfix⟩
    · obtain ⟨l, hmem, hl⟩ := ih hi
      by_cases hc : c = '\n'
      · subst hc
        exact ⟨l, splitLines_cons_newline cs ▸ List.mem_cons_of_mem [] hmem, hl⟩
      · obtain ⟨h', tl', he'⟩ := List.exists_cons_of_ne_nil (splitLines_ne_nil cs)
        rw [he'] at hmem
        rcases List.mem_cons.mp hmem with rfl | hmem'
        · refine ⟨c :: l, ?_, hl.trans (List.infix_cons (List.infix_refl l))⟩
          rw [splitLines_cons_ne hc cs he']
          exact List.mem_cons_self (c :: l) tl'
        · refine ⟨l, ?_, hl⟩
          rw [splitLines_cons_ne hc cs he']
          exact List.mem_cons_of_mem (c :: h') hmem'

/-- A line holding a non-whitespace character is non-blank. -/
theorem nonBlank_of_mem {c : Char} {l : List Char} (hc : c ∈ l)
    (hs : isPySpace c = false) : nonBlank l = true := by
  have hne : pyStrip l ≠ [] := by
    intro hnil
    unfold pyStrip at hnil
    rw [List.reverse_eq_nil_iff, List.dropWhile_eq_nil_iff] at hnil
    have hall : ∀ x ∈ l.dropWhile isPySpace, isPySpace x = true := by
      intro x hx
      exact hnil x (List.mem_reverse.mpr hx)
    have : isPySpace c = true := by
      rcases List.mem_append.mp
          ((List.takeWhile_append_dropWhile isPySpace l).symm ▸ hc) with htk | hdr
      · exact List.mem_takeWhile_imp htk
      · exact hall c hdr
    rw [this] at hs
    exact Bool.noConfusion hs
  simpa [nonBlank, List.isEmpty_iff] using hne

/-- Re-splitting, re-filtering and re-joining an already filtered join of
non-blank newline-free lines is the identity. -/
theorem joinLines_filter_splitLines {M : List (List Char)}
    (hnb : ∀ l ∈ M, nonBlank l = true) (hnl : ∀ l ∈ M, '\n' ∉ l) :
    joinLines ((splitLines (joinLines M)).filter nonBlank) = joinLines M := by
  cases M with
  | nil => rfl
  | cons m ms =>
    rw [splitLines_joinLines (by simp) hnl, List.filter_eq_self.mpr hnb]

/-- Claim C1: `validate_individual` returns `SAFE` exactly when the
interpreter process completed within the timeout with exit status zero,
and then the diagnostic is the captured stdout, or the sentinel `"ok"`
when the captured stdout is empty. -/
theorem c1_validate_safe_iff :
    (∀ r : RunResult, (JSTarget.validate_individual r).1 = FResult.SAFE ↔
      ∃ out err, r = RunResult.completed 0 out err) ∧
    (∀ out err, JSTarget.validate_individual (RunResult.completed 0 out err) =
      (FResult.SAFE, if out = "" then "ok" else out)) := by
  constructor
  · intro r
    cases r with
    | completed rc out err =>
      by_cases h : rc = 0
      · subst h
        simp [JSTarget.validate_individual]
      · simp [JSTarget.validate_individual, h]
    | timedOut => simp [JSTarget.validate_individual]
    | fileNotFound => simp [JSTarget.validate_individual]
  · intro out err
    simp [JSTarget.validate_individual, pyOr]

/-- Claim C1, witness: a clean exit 0 with empty stdout is classified
`SAFE` with the `"ok"` sentinel, and with nonempty stdout `"out"` the
diagnostic is that stdout. -/
theorem c1_validate_safe_iff_witness :
    (JSTarget.validate_individual (RunResult.completed 0 "" "")).1 = FResult.SAFE ∧
    JSTarget.validate_individual (RunResult.completed 0 "out" "e") =
      (FResult.SAFE, "out") := by
  refine ⟨(c1_validate_safe_iff.1 (RunResult.completed 0 "" "")).mpr ⟨"", "", rfl⟩, ?_⟩
  simpa using c1_validate_safe_iff.2 "out" "e"

/-- Claim C2, counterexample: with target symbol `" "` (a bare space) and
candidate `"x\n \nz"`, `filter` accepts (the space occurs in the
comment-stripped text) but the space does not occur in the normalized
source, whose blank middle line was dropped by `clean_code`.  The claim
as stated is therefore false for whitespace-only target symbols. -/
theorem c2_counterexample :
    JSTarget.filter "Q".data " ".data "x\n \nz".data = true ∧
    ¬ (" ".data <:+: JSTarget.clean_code "Q".data "x\n \nz".data) :=
  ⟨by decide, fun h => absurd ((containsSub_iff _ _).mpr h) (by decide)⟩

/-- Claim C2 (amended): when the configured target symbol contains no
newline and at least one non-whitespace character, `filter` returning
true implies the target symbol occurs verbatim in the normalized source
`clean_code` produces from the candidate. -/
theorem c2_filter_imp_infix_clean_code (b t s : List Char)
    (hn : ∀ c ∈ t, c ≠ '\n') (hw : ∃ c ∈ t, isPySpace c = false)
    (hf : JSTarget.filter b t s = true) :
    t <:+: JSTarget.clean_code b s := by
  have hinf : t <:+: comment_remover (pyStrip (removeAll b s)) :=
    (containsSub_iff _ _).mp hf
  obtain ⟨l, hmem, hl⟩ := infix_splitLines hn hinf
  obtain ⟨c, hc, hcs⟩ := hw
  have hnb : nonBlank l = true := nonBlank_of_mem (hl.subset hc) hcs
  have hgoal : JSTarget.clean_code b s =
      joinLines (((splitLines (comment_remover (pyStrip (removeAll b s))))).filter nonBlank) :=
    rfl
  rw [hgoal]
  exact hl.trans (infix_joinLines_of_mem (List.mem_filter.mpr ⟨hmem, hnb⟩))

/-- Claim C2 (amended), witness: target `"foo"`, candidate `"foo(1)"`. -/
theorem c2_filter_imp_infix_clean_code_witness :
    "foo".data <:+: JSTarget.clean_code "Q".data "foo(1)".data :=
  c2_filter_imp_infix_clean_code "Q".data "foo".data "foo(1)".data
    (by decide) ⟨'f', by decide, by decide⟩ (by decide)

/-- Claim C3, counterexample: `code.replace(begin, "")` removes EVERY
occurrence of the begin marker, not only the first.  With begin marker
`"Q"`, target `"Qz"` and candidate `"QQz"`, the claim's algorithm
(remove only the first occurrence) accepts, but `filter` rejects. -/
theorem c3_counterexample :
    JSTarget.filter "Q".data "Qz".data "QQz".data = false ∧
    acceptSpecC3 "Q".data "Qz".data "QQz".data = true := by
  decide

/-- Claim C3 (amended): `filter` accepts exactly when the target symbol
is a literal substring of the candidate after removing EVERY literal
occurrence of the begin marker, trimming surrounding whitespace and
stripping all comments. -/
theorem c3_filter_accepts_iff (b t s : List Char) :
    JSTarget.filter b t s = true ↔ t <:+: comment_remover (pyStrip (removeAll b s)) :=
  containsSub_iff _ _

/-- Claim C3 (amended), witness. -/
theorem c3_filter_accepts_iff_witness :
    "foo".data <:+: comment_remover (pyStrip (removeAll "Q".data "foo(1) // Q".data)) :=
  (c3_filter_accepts_iff "Q".data "foo".data "foo(1) // Q".data).mp (by decide)

/-- Claim C4: a completed run with nonzero exit status is classified
`FAILURE`, with diagnostic the captured stderr when nonempty, else the
captured stdout. -/
theorem c4_validate_failure (rc : Int) (out err : String) (h : rc ≠ 0) :
    JSTarget.validate_individual (RunResult.completed rc out err) =
      (FResult.FAILURE, if err = "" then out else err) := by
  simp [JSTarget.validate_individual, h, pyOr]

/-- Claim C4, witness: exit status 1 with stderr `"boom"`. -/
theorem c4_validate_failure_witness :
    JSTarget.validate_individual (RunResult.completed 1 "o" "boom") =
      (FResult.FAILURE, "boom") := by
  simpa using c4_validate_failure 1 "o" "boom" (by decide)

/-- Claim C5, counterexample: `normalize` (= `clean_code`) is NOT
idempotent.  On `"b\na // c"` the first pass strips the line comment
after the outer trim already ran, leaving the trailing space in
`"b\na "`; the second pass's trim removes that space, giving `"b\na"`. -/
theorem c5_counterexample :
    JSTarget.clean_code "Q".data (JSTarget.clean_code "Q".data "b\na // c".data) ≠
      JSTarget.clean_code "Q".data "b\na // c".data := by
  decide

/-- Claim C5 (amended): `clean_code` is idempotent on every candidate
whose normalized form is left unchanged by the first three stages —
begin-marker removal, trimming, and comment stripping; the fourth stage
(dropping blank lines and rejoining) is always idempotent. -/
theorem c5_clean_code_idem (b x : List Char)
    (h1 : removeAll b (JSTarget.clean_code b x) = JSTarget.clean_code b x)
    (h2 : pyStrip (JSTarget.clean_code b x) = JSTarget.clean_code b x)
    (h3 : comment_remover (JSTarget.clean_code b x) = JSTarget.clean_code b x) :
    JSTarget.clean_code b (JSTarget.clean_code b x) = JSTarget.clean_code b x := by
  have hy : JSTarget.clean_code b x =
      joinLines ((splitLines (comment_remover (pyStrip (removeAll b x)))).filter nonBlank) :=
    rfl
  have hnb : ∀ l ∈ (splitLines (comment_remover (pyStrip (removeAll b x)))).filter nonBlank,
      nonBlank l = true :=
    fun l hl => (List.mem_filter.mp hl).2
  have hnl : ∀ l ∈ (splitLines (comment_remover (pyStrip (removeAll b x)))).filter nonBlank,
      '\n' ∉ l :=
    fun l hl => not_newline_of_mem_splitLines _ l (List.mem_filter.mp hl).1
  calc JSTarget.clean_code b (JSTarget.clean_code b x)
      = joinLines ((splitLines (comment_remover (pyStrip
          (removeAll b (JSTarget.clean_code b x))))).filter nonBlank) := rfl
    _ = joinLines ((splitLines (JSTarget.clean_code b x)).filter nonBlank) := by
        rw [h1, h2, h3]
    _ = JSTarget.clean_code b x := by
        rw [hy]
        exact joinLines_filter_splitLines hnb hnl

/-- Claim C5 (amended), witness: `"a\nb"` is already normal, and a second
pass leaves it unchanged. -/
theorem c5_clean_code_idem_witness :
    removeAll "Q".data (JSTarget.clean_code "Q".data "a\nb".data) =
        JSTarget.clean_code "Q".data "a\nb".data ∧
    pyStrip (JSTarget.clean_code "Q".data "a\nb".data) =
        JSTarget.clean_code "Q".data "a\nb".data ∧
    comment_remover (JSTarget.clean_code "Q".data "a\nb".data) =
        JSTarget.clean_code "Q".data "a\nb".data ∧
    JSTarget.clean_code "Q".data (JSTarget.clean_code "Q".data "a\nb".data) =
        JSTarget.clean_code "Q".data "a\nb".data :=
  ⟨by decide, by decide, by decide,
    c5_clean_code_idem "Q".data "a\nb".data (by decide) (by decide) (by decide)⟩

/-- Claim C6, counterexample: the artifact file written by
`write_back_file` is still present in the file system after the
validation call returns, on the timed-out path as well as on the
environment-error, safe and failure paths — no exit path removes it. -/
theorem c6_counterexample :
    fsLookup (artifactPath 7)
        (JSTarget.validateCall "Q".data 7 "x()".data RunResult.timedOut ([] : FS)).2 =
      some (JSTarget.clean_code "Q".data "x()".data) ∧
    fsLookup (artifactPath 7)
        (JSTarget.validateCall "Q".data 7 "x()".data RunResult.fileNotFound ([] : FS)).2 ≠
      none ∧
    fsLookup (artifactPath 7)
        (JSTarget.validateCall "Q".data 7 "x()".data (RunResult.completed 0 "" "") ([] : FS)).2 ≠
      none ∧
    fsLookup (artifactPath 7)
        (JSTarget.validateCall "Q".data 7 "x()".data (RunResult.completed 1 "" "e") ([] : FS)).2 ≠
      none := by
  decide

/-- Claim C6 (amended): on every exit path the validation call leaves the
artifact in place — the final file system still maps the artifact path to
the normalized source; nothing in `validate_individual` removes it. -/
theorem c6_artifact_persists (b : List Char) (t : Nat) (code : List Char)
    (r : RunResult) (fs : FS) :
    fsLookup (artifactPath t) (JSTarget.validateCall b t code r fs).2 =
      some (JSTarget.clean_code b code) := by
  simp [JSTarget.validateCall, JSTarget.write_back_file, fsWrite, fsLookup]

/-- Claim C7, counterexample: an interpreter binary that is present but
cannot be launched makes `subprocess.run` raise `PermissionError`, which
the `try` block (JS.py lines 66-80) does not catch — the validate call
raises instead of returning, so it does not return `ERROR` with the
sentinel.  The claim's "cannot be located or launched" umbrella is
therefore false on the cannot-be-launched half. -/
theorem c7_counterexample :
    JSTarget.validate_individual_run RunEvent.permissionError = none ∧
    JSTarget.validate_individual_run RunEvent.permissionError ≠
      some (FResult.ERROR, "node-not-found") := by
  decide

/-- Claim C7 (amended): when the interpreter binary cannot be LOCATED —
every launch raises `FileNotFoundError` — every validation call returns
`ERROR` with the fixed sentinel `"node-not-found"`, regardless of the
candidate's file; a launch failure that raises `PermissionError`
instead propagates uncaught rather than being classified. -/
theorem c7_env_error_file_not_found (env : String → RunEvent)
    (henv : ∀ f, env f = RunEvent.fileNotFound) (file : String) :
    JSTarget.validate_individual_run (env file) =
      some (FResult.ERROR, "node-not-found") ∧
    JSTarget.validate_individual_run RunEvent.permissionError = none := by
  constructor
  · rw [henv file]
    rfl
  · rfl

/-- Claim C7 (amended), witness. -/
theorem c7_env_error_file_not_found_witness :
    JSTarget.validate_individual_run ((fun _ => RunEvent.fileNotFound) "cand.js") =
      some (FResult.ERROR, "node-not-found") :=
  (c7_env_error_file_not_found (fun _ => RunEvent.fileNotFound) (fun _ => rfl) "cand.js").1

/-- Claim C8: when the child process exceeds the timeout
(`subprocess.TimeoutExpired`, whose semantics kill the child), the call
returns `TIMED_OUT` with the fixed category label `"javascript"`. -/
theorem c8_timeout :
    JSTarget.validate_individual RunResult.timedOut =
      (FResult.TIMED_OUT, "javascript") := rfl

/-- Claim C9, counterexample: two validation calls that share the same
`CURRENT_TIME` value write to the SAME artifact path, and the second
write overwrites the first call's artifact with different contents —
names derived from the coarse timestamp alone do collide. -/
theorem c9_counterexample :
    (JSTarget.write_back_file "Q".data 5 "aaa()".data ([] : FS)).1 =
      (JSTarget.write_back_file "Q".data 5 "bbb()".data
        (JSTarget.write_back_file "Q".data 5 "aaa()".data ([] : FS)).2).1 ∧
    fsLookup (JSTarget.write_back_file "Q".data 5 "aaa()".data ([] : FS)).1
        (JSTarget.write_back_file "Q".data 5 "bbb()".data
          (JSTarget.write_back_file "Q".data 5 "aaa()".data ([] : FS)).2).2 =
      some (JSTarget.clean_code "Q".data "bbb()".data) ∧
    JSTarget.clean_code "Q".data "bbb()".data ≠ JSTarget.clean_code "Q".data "aaa()".data := by
  decide

/-- Claim C9 (amended): the artifact path is a function of the shared
`CURRENT_TIME` timestamp alone — independent of the candidate, the begin
marker and the file system — so concurrent calls sharing the timestamp
collide on the same artifact, and distinct artifacts are only obtained
for distinct timestamp values. -/
theorem c9_path_from_time_alone (b b' : List Char) (t : Nat) (c c' : List Char)
    (fs fs' : FS) :
    (JSTarget.write_back_file b t c fs).1 = (JSTarget.write_back_file b' t c' fs').1 := rfl

/-- Claim C10: a completed run with nonzero exit status and empty stdout
and stderr is classified `FAILURE` with an empty diagnostic — the
`"ok"` substitution applies only on the `SAFE` path. -/
theorem c10_failure_empty_diag (rc : Int) (h : rc ≠ 0) :
    JSTarget.validate_individual (RunResult.completed rc "" "") = (FResult.FAILURE, "") := by
  simp [JSTarget.validate_individual, h, pyOr]

/-- Claim C10, witness: exit status 3. -/
theorem c10_failure_empty_diag_witness :
    JSTarget.validate_individual (RunResult.completed 3 "" "") = (FResult.FAILURE, "") :=
  c10_failure_empty_diag 3 (by decide)
